import Mathlib

/-!
Shallow embedding of the gtokenserver credential-resolution and
metadata-protocol core (package `server` plus `internal/util`), translated
from the Go sources.  External effects (filesystem stat/read, the userinfo
endpoint, the cloudresourcemanager project lookup, the oauth2 token source)
are modelled as explicit oracle functions carried in `Env` and `World`;
the process-wide mutable cache slot `lastCachedDefaultCredentials` and the
two warn flags are threaded as an explicit `ServerState`.
-/

namespace GTokenServer

/-- An oauth2 token, as produced by a credential's token source
(`oauth2.Token`): expiry is modelled in epoch seconds. -/
structure Token where
  accessToken : String
  tokenType : String
  expiry : Int
deriving DecidableEq, Repr

/-- Parsed view of a credential JSON payload (`credentialsJSON` in
internal/util/http.go): fields client_id, type, client_email. -/
structure CredJSON where
  clientID : String
  type : String
  clientEmail : String
deriving DecidableEq, Repr

/-- A `google.Credentials` value: `json = none` models a payload on which
`json.Unmarshal` fails; `tokenResult` models the outcome of
`TokenSource.Token()` (none = error); `projectID` is the credential's
embedded project id. -/
structure Credential where
  json : Option CredJSON
  projectID : String
  tokenResult : Option Token
deriving DecidableEq, Repr

/-- Outcome oracle for the external world: `userinfo` maps an access token
to the userinfo endpoint's response (none = network/read error; the body is
`none` when `json.Unmarshal` fails, otherwise the parsed `Email` field);
`projectLookup` maps a project id to the cloudresourcemanager response in
the same shape (body field = parsed `projectNumber`); `now` is the current
time in epoch seconds. -/
structure World where
  userinfo : String → Option (Nat × Option String)
  projectLookup : String → Option (Nat × Option String)
  now : Int

/-- Filesystem / discovery oracle: `stat p = none` models `os.IsNotExist`,
`some isDir` a successful stat; `readFile` models `ioutil.ReadFile`;
`parseCred` models `google.CredentialsFromJSON` for a body and scopes;
`findDefault` models `google.FindDefaultCredentials`; `cloudSDKConfigEnv`
models `os.Getenv("CLOUDSDK_CONFIG")`. -/
structure Env where
  cloudSDKConfigEnv : String
  stat : String → Option Bool
  readFile : String → Option String
  parseCred : String → List String → Option Credential
  findDefault : List String → Option Credential

/-- Server configuration (`Config` in server.go, richer variant). -/
structure Config where
  scopes : List String
  project : String
  cloudSDKConfig : String
  googleApplicationCredentials : String

/-- Model of `cachedDefaultCredentials` (cache.go): email memo sentinel is the empty
string, numericProjectID memo sentinel is 0, exactly as in the Go struct's
zero values. -/
structure cachedDefaultCredentials where
  credentials : Credential
  clientID : String
  projectID : String
  email : String := ""
  numericProjectID : Int := 0
deriving DecidableEq, Repr

/-- Process-wide mutable state: the single cache slot
`lastCachedDefaultCredentials` and the two rate-limit warn flags on
`Server`. -/
structure ServerState where
  slot : Option cachedDefaultCredentials := none
  warnGoogleApplicationCredentials : Bool := false
  warnCloudSDKConfig : Bool := false
deriving DecidableEq, Repr

/-- Model of `strconv.ParseInt(s, 10, 64)`: optional sign, at least one decimal
digit, result within the int64 range; `none` models any error (including
range errors, which Go reports as errors). -/
def parseInt64 (s : String) : Option Int :=
  let signed : Bool × List Char :=
    match s.data with
    | '-' :: rest => (true, rest)
    | '+' :: rest => (false, rest)
    | l => (false, l)
  let digits := signed.2
  if digits = [] then none
  else if digits.all Char.isDigit then
    let n : Nat := digits.foldl (fun a c => a * 10 + (c.toNat - '0'.toNat)) 0
    let v : Int := if signed.1 then -(n : Int) else (n : Int)
    if -(2 ^ 63) ≤ v ∧ v ≤ 2 ^ 63 - 1 then some v else none
  else none

/-- Model of `getEmailOfAuthorizedUser` (internal/util/http.go): fetch a token from
the source, GET the userinfo endpoint with it, require HTTP 200 and a
parsable body, return the `Email` field. -/
def getEmailOfAuthorizedUser (cred : Credential) (w : World) : Except String String :=
  match cred.tokenResult with
  | none => .error "Failed to get token to resolve email"
  | some tok =>
    match w.userinfo tok.accessToken with
    | none => .error "Failed to access the userinfo endpoint"
    | some (status, body) =>
      if status ≠ 200 then .error "Unexpected response from the userinfo endpoint"
      else
        match body with
        | none => .error "Failed to parse response from the userinfo endpoint"
        | some email => .ok email

/-- Model of `GetEmailOfCredentials` (internal/util/http.go): parse the credential
JSON, branch on the `type` discriminant. -/
def GetEmailOfCredentials (cred : Credential) (w : World) : Except String String :=
  match cred.json with
  | none => .error "Failed to parse credentials JSON"
  | some c =>
    if c.type = "authorized_user" then getEmailOfAuthorizedUser cred w
    else if c.type = "service_account" then .ok c.clientEmail
    else .error "Unexpected type"

/-- Number of external resolutions performed by one (non-memo-hit) call of
`GetEmailOfCredentials`: the userinfo round-trip happens exactly when the
payload parses and its type is `authorized_user`. -/
def emailExternalCalls (cred : Credential) : Nat :=
  match cred.json with
  | none => 0
  | some c => if c.type = "authorized_user" then 1 else 0

/-- Model of `newCachedDefaultCredentials` (cache.go): computes `ClientID` eagerly
via `GetEmailOfCredentials`; project override falls back to the
credential's embedded project id. -/
def newCachedDefaultCredentials (credentials : Credential) (projectID : String)
    (w : World) : Except String cachedDefaultCredentials :=
  match GetEmailOfCredentials credentials w with
  | .error e => .error e
  | .ok clientID =>
    let pid := if projectID = "" then credentials.projectID else projectID
    .ok { credentials := credentials, clientID := clientID, projectID := pid }

/-- Model of `(c *cachedDefaultCredentials) GetEmail` (cache.go): memo hit when the
stored email is non-empty; otherwise resolve and memoize.  The third
component counts external resolutions performed by this call. -/
def GetEmail (c : cachedDefaultCredentials) (w : World) :
    Except String String × cachedDefaultCredentials × Nat :=
  if c.email ≠ "" then (.ok c.email, c, 0)
  else
    match GetEmailOfCredentials c.credentials w with
    | .ok email => (.ok email, { c with email := email }, emailExternalCalls c.credentials)
    | .error e => (.error e, c, emailExternalCalls c.credentials)

/-- Model of `(c *cachedDefaultCredentials) GetNumericProjectID` (cache.go): returns
0 when no project id is known; memo hit when the stored value is nonzero;
otherwise one authenticated GET to the project endpoint, requiring HTTP 200,
a parsable body and a `projectNumber` field parsing as a decimal int64.
The third component counts remote project-lookup calls made by this call. -/
def GetNumericProjectID (c : cachedDefaultCredentials) (w : World) :
    Except String Int × cachedDefaultCredentials × Nat :=
  if c.projectID = "" then (.ok 0, c, 0)
  else if c.numericProjectID ≠ 0 then (.ok c.numericProjectID, c, 0)
  else
    match w.projectLookup c.projectID with
    | none => (.error "Failed to resolve numeric project number", c, 1)
    | some (status, body) =>
      if status ≠ 200 then (.error "Unexpected response from project endpoint", c, 1)
      else
        match body with
        | none => (.error "Unexpected response from project endpoint", c, 1)
        | some pn =>
          match parseInt64 pn with
          | none => (.error "Unexpected response from project endpoint", c, 1)
          | some v => (.ok v, { c with numericProjectID := v }, 1)

/-- Model of `(c *cachedDefaultCredentials) Token` (cache.go). -/
def credToken (c : cachedDefaultCredentials) : Option Token :=
  c.credentials.tokenResult

/-- Model of `credentialsFromFile` (http.go richer server variant): read the file
then `google.CredentialsFromJSON`; `none` models either failure. -/
def credentialsFromFile (env : Env) (file : String) (scopes : List String) :
    Option Credential :=
  match env.readFile file with
  | none => none
  | some body => env.parseCred body scopes

/-- The fixed well-known filename joined under the cloud-sdk config
directory (`filepath.Join(cloudSDKConfig, "application_default_credentials.json")`). -/
def applicationConfigPath (dir : String) : String :=
  dir ++ "/application_default_credentials.json"

/-- Model of `findCredentials` (http.go richer server variant): explicit
GOOGLE_APPLICATION_CREDENTIALS file, then the cloud-sdk config directory
(explicit or from the CLOUDSDK_CONFIG environment variable), then
`google.FindDefaultCredentials`.  Warn flags are threaded exactly as the Go
code sets them. -/
def findCredentialsStep1 (cfg : Config) (env : Env) (st : ServerState)
    (scopes : List String) : Option Credential × ServerState :=
  if cfg.googleApplicationCredentials ≠ "" then
    match env.stat cfg.googleApplicationCredentials with
    | some false =>
      match credentialsFromFile env cfg.googleApplicationCredentials scopes with
      | some cred => (some cred, { st with warnGoogleApplicationCredentials := false })
      | none => (none, { st with warnGoogleApplicationCredentials := true })
    | _ => (none, { st with warnGoogleApplicationCredentials := true })
  else (none, st)

/-- The effective cloud-sdk configuration directory: the configured value,
else the `CLOUDSDK_CONFIG` environment fallback. -/
def effectiveCloudSDKConfig (cfg : Config) (env : Env) : String :=
  if cfg.cloudSDKConfig = "" then env.cloudSDKConfigEnv else cfg.cloudSDKConfig

def findCredentialsStep2 (cfg : Config) (env : Env) (st : ServerState)
    (scopes : List String) : Option Credential × ServerState :=
  let cloudSDKConfig := effectiveCloudSDKConfig cfg env
  if cloudSDKConfig ≠ "" then
    match env.stat (applicationConfigPath cloudSDKConfig) with
    | some false =>
      match credentialsFromFile env (applicationConfigPath cloudSDKConfig) scopes with
      | some cred => (some cred, { st with warnCloudSDKConfig := false })
      | none => (none, { st with warnCloudSDKConfig := true })
    | _ => (none, st)
  else (none, st)

def findCredentials (cfg : Config) (env : Env) (st : ServerState)
    (scopes : List String) : Option Credential × ServerState :=
  match findCredentialsStep1 cfg env st scopes with
  | (some cred, st1) => (some cred, st1)
  | (none, st1) =>
    match findCredentialsStep2 cfg env st1 scopes with
    | (some cred, st2) => (some cred, st2)
    | (none, st2) => (env.findDefault scopes, st2)

/-- Spec-side restatement of the fallback order, written from the spec's
words ("first success wins"): the explicit file if configured, existing,
not a directory and parsing; else the well-known file under the effective
CLI-config directory under the same rules; else ambient discovery. -/
def explicitFileCredSpec (cfg : Config) (env : Env) (scopes : List String) :
    Option Credential :=
  if cfg.googleApplicationCredentials ≠ ""
      ∧ env.stat cfg.googleApplicationCredentials = some false then
    credentialsFromFile env cfg.googleApplicationCredentials scopes
  else none

/-- Spec-side: the CLI-config directory step, on the effective directory
(explicit configuration, else the environment fallback). -/
def cliConfigCredSpec (cfg : Config) (env : Env) (scopes : List String) :
    Option Credential :=
  let dir := if cfg.cloudSDKConfig = "" then env.cloudSDKConfigEnv else cfg.cloudSDKConfig
  if dir ≠ "" ∧ env.stat (applicationConfigPath dir) = some false then
    credentialsFromFile env (applicationConfigPath dir) scopes
  else none

/-- Spec-side restatement of the whole chain: first available source wins. -/
def findCredentialsSpec (cfg : Config) (env : Env) (scopes : List String) :
    Option Credential :=
  match explicitFileCredSpec cfg env scopes with
  | some c => some c
  | none =>
    match cliConfigCredSpec cfg env scopes with
    | some c => some c
    | none => env.findDefault scopes

/-- Model of `getCredentials` (http.go richer server variant).  `scopes = none`
models the nil variadic slice of a `s.getCredentials()` call (default
scopes); `some l` models an explicit scope list.  On a default-scope cache
miss the code stores the new entry and immediately calls `GetEmail` on it
for logging, which memoizes the email through the shared pointer. -/
def getCredentials (cfg : Config) (env : Env) (w : World) (st : ServerState)
    (scopes : Option (List String)) :
    Option cachedDefaultCredentials × ServerState :=
  let actualScopes := scopes.getD cfg.scopes
  match findCredentials cfg env st actualScopes with
  | (none, st1) => (none, st1)
  | (some cred, st1) =>
    match newCachedDefaultCredentials cred cfg.project w with
    | .error _ => (none, st1)
    | .ok newCache =>
      match scopes with
      | some _ =>
        -- Don't cache if scopes are explicitly specified.
        (some newCache, st1)
      | none =>
        match st1.slot with
        | some cached =>
          if cached.clientID = newCache.clientID then (some cached, st1)
          else
            let newCache2 := (GetEmail newCache w).2.1
            (some newCache2, { st1 with slot := some newCache2 })
        | none =>
          let newCache2 := (GetEmail newCache w).2.1
          (some newCache2, { st1 with slot := some newCache2 })

/-- A rendered response body: the protocol's two content shapes, kept
structured instead of re-serialising JSON text. -/
inductive Body
  | empty
  | text (s : String)
  | jsonRecursive (scopes : List String) (email : String) (aliases : List String)
  | jsonToken (accessToken : String) (tokenType : String) (expiresIn : Int)
deriving DecidableEq, Repr

/-- The response writer's observable outcome: `status = none` means no
`WriteHeader`/`Write` happened, in which case net/http sends 200. -/
structure Response where
  status : Option Nat := none
  flavorHeader : Bool := false
  contentType : String := ""
  body : Body := .empty
deriving DecidableEq, Repr

/-- The status actually sent on the wire: implicit 200 when the handler
wrote nothing. -/
def finalStatus (r : Response) : Nat :=
  r.status.getD 200

/-- Model of `writeTextResponse` (http.go): Metadata-Flavor/Content-Type headers,
then a body write (which makes net/http send 200). -/
def writeTextResponse (text : String) : Response :=
  { status := some 200, flavorHeader := true, contentType := "application/text",
    body := .text text }

/-- Model of `writeJSONResponse` (http.go) — marshalling of the fixed response
structs cannot fail, so the success path is the only one reachable. -/
def writeJSONResponse (b : Body) : Response :=
  { status := some 200, flavorHeader := true, contentType := "application/json",
    body := b }

/-- A bare `w.WriteHeader(code)` with nothing else written. -/
def statusOnly (code : Nat) : Response :=
  { status := some code }

/-- An inbound HTTP request, restricted to the parts the server reads:
path, the Metadata-Flavor header (`none` = absent; `Header.Get` then
yields the empty string), and the `scopes` / `recursive` query values
(`Query().Get` yields "" when absent). -/
structure Request where
  path : String
  metadataFlavor : Option String := none
  qScopes : String := ""
  qRecursive : String := ""
deriving DecidableEq, Repr

/-- The routes registered on the gorilla/mux router in `Serve`
(richer variant): the `{account}` variable matches one nonempty
slash-free path segment. -/
inductive Route
  | projectID
  | numericProjectID
  | serviceAccounts
  | account (acct : String)
  | accountEmail (acct : String)
  | accountToken (acct : String)
  | accountIdentity (acct : String)
  | unmatched
deriving DecidableEq, Repr

/-- Split a character list on a separator character; agrees with Go's
`strings.Split` (and `String.splitOn`) for a one-character separator:
`splitOnChar ',' "a,b".data = ["a".data, "b".data]`, and the empty input
yields one empty field. -/
def splitOnChar (sep : Char) : List Char → List (List Char)
  | [] => [[]]
  | c :: rest =>
    if c = sep then [] :: splitOnChar sep rest
    else
      match splitOnChar sep rest with
      | [] => [[c]]
      | s :: ss => (c :: s) :: ss

/-- Model of `strings.Split(s, sep)` for a one-character separator. -/
def splitOnStr (s : String) (sep : Char) : List String :=
  (splitOnChar sep s.data).map String.mk

/-- The per-account subtree's path root. -/
def saRootPath : String := "/computeMetadata/v1/instance/service-accounts/"

/-- Path dispatch mirroring the router registrations in `Serve`: the
`{account}` variable matches one nonempty slash-free segment. -/
def routeOf (path : String) : Route :=
  if path = "/computeMetadata/v1/project/project-id" then .projectID
  else if path = "/computeMetadata/v1/project/numeric-project-id" then .numericProjectID
  else if path = saRootPath then .serviceAccounts
  else if saRootPath.data.isPrefixOf path.data then
    let rest : List Char := path.data.drop saRootPath.data.length
    match splitOnChar '/' rest with
    | [acct, tail] =>
      if acct = [] then .unmatched
      else if tail = [] then .account (String.mk acct)
      else if tail = "email".data then .accountEmail (String.mk acct)
      else if tail = "token".data then .accountToken (String.mk acct)
      else if tail = "identity".data then .accountIdentity (String.mk acct)
      else .unmatched
    | _ => .unmatched
  else .unmatched

/-- Model of `handleProjectProjectID` (http.go): empty text when credentials cannot
be resolved, otherwise the cached project id. -/
def handleProjectProjectID (cfg : Config) (env : Env) (w : World)
    (st : ServerState) : Response × ServerState :=
  match getCredentials cfg env w st none with
  | (none, st1) => (writeTextResponse "", st1)
  | (some cred, st1) => (writeTextResponse cred.projectID, st1)

/-- Model of `handleProjectNumericProjectID` (http.go): "0" when credentials cannot
be resolved; 500 on a resolver error; the decimal value otherwise.  The
memo update flows back into the cache slot through the shared pointer. -/
def handleProjectNumericProjectID (cfg : Config) (env : Env) (w : World)
    (st : ServerState) : Response × ServerState :=
  match getCredentials cfg env w st none with
  | (none, st1) => (writeTextResponse "0", st1)
  | (some cred, st1) =>
    let r := GetNumericProjectID cred w
    let st2 := { st1 with slot := some r.2.1 }
    match r.1 with
    | .error _ => (statusOnly 500, st2)
    | .ok v => (writeTextResponse (toString v), st2)

/-- Model of `handleServiceAccounts` (http.go): 500 when credentials cannot be
resolved or the email cannot be derived, otherwise the two-line listing. -/
def handleServiceAccounts (cfg : Config) (env : Env) (w : World)
    (st : ServerState) : Response × ServerState :=
  match getCredentials cfg env w st none with
  | (none, st1) => (statusOnly 500, st1)
  | (some cred, st1) =>
    let r := GetEmail cred w
    let st2 := { st1 with slot := some r.2.1 }
    match r.1 with
    | .error _ => (statusOnly 500, st2)
    | .ok email => (writeTextResponse ("default/\n" ++ email ++ "\n"), st2)

/-- Model of `serviceAccountMiddleware` (http.go): resolve default credentials (a
nil result returns with nothing written), pass `default` through, else
require the account segment to equal the derived email (404 otherwise,
500 when the email cannot be derived). -/
def serviceAccountMiddleware (cfg : Config) (env : Env) (w : World)
    (acct : String)
    (next : cachedDefaultCredentials → ServerState → Response × ServerState)
    (st : ServerState) : Response × ServerState :=
  match getCredentials cfg env w st none with
  | (none, st1) => ({ }, st1)
  | (some cred, st1) =>
    if acct = "default" then next cred st1
    else
      let r := GetEmail cred w
      let st2 := { st1 with slot := some r.2.1 }
      match r.1 with
      | .error _ => (statusOnly 500, st2)
      | .ok email =>
        if acct ≠ email then (statusOnly 404, st2)
        else next r.2.1 st2

/-- Model of `handleServiceAccount` (http.go): plain three-line listing unless
`recursive=true`, in which case the JSON shape with the default scopes,
the derived email and the fixed alias list. -/
def handleServiceAccount (cfg : Config) (w : World) (r : Request)
    (cred : cachedDefaultCredentials) (st : ServerState) :
    Response × ServerState :=
  if r.qRecursive ≠ "true" then (writeTextResponse "email/\nscopes/\ntoken\n", st)
  else
    let g := GetEmail cred w
    let st2 := { st with slot := some g.2.1 }
    match g.1 with
    | .error _ => (statusOnly 500, st2)
    | .ok email => (writeJSONResponse (.jsonRecursive cfg.scopes email ["default"]), st2)

/-- Model of `handleServiceAccountEmail` (http.go). -/
def handleServiceAccountEmail (w : World) (cred : cachedDefaultCredentials)
    (st : ServerState) : Response × ServerState :=
  let g := GetEmail cred w
  let st2 := { st with slot := some g.2.1 }
  match g.1 with
  | .error _ => (statusOnly 500, st2)
  | .ok email => (writeTextResponse email, st2)

/-- Model of `handleServiceAccountToken` (http.go): with a nonempty `scopes` query
the credential is re-resolved for exactly the comma-separated scopes
(never cached); then a token is requested from the chosen credential and
rendered with `expires_in` = seconds until expiry. -/
def handleServiceAccountToken (cfg : Config) (env : Env) (w : World)
    (r : Request) (cred : cachedDefaultCredentials) (st : ServerState) :
    Response × ServerState :=
  let chosen : Option cachedDefaultCredentials × ServerState :=
    if r.qScopes ≠ "" then getCredentials cfg env w st (some (splitOnStr r.qScopes ','))
    else (some cred, st)
  match chosen with
  | (none, st1) => (statusOnly 500, st1)
  | (some c, st1) =>
    match credToken c with
    | none => (statusOnly 500, st1)
    | some tok =>
      (writeJSONResponse (.jsonToken tok.accessToken tok.tokenType (tok.expiry - w.now)), st1)

/-- Model of `handleServiceAccountIdentity` (http.go): unconditionally 404. -/
def handleServiceAccountIdentity (st : ServerState) : Response × ServerState :=
  (statusOnly 404, st)

/-- Model of `notFound` (http.go): the router's NotFoundHandler. -/
def notFoundHandler (st : ServerState) : Response × ServerState :=
  (statusOnly 404, st)

/-- The routed application below the flavor gate: dispatch on the path and
wrap the per-account subtree in `serviceAccountMiddleware`, exactly as
`Serve` wires the router. -/
def routedApp (cfg : Config) (env : Env) (w : World) (r : Request)
    (st : ServerState) : Response × ServerState :=
  match routeOf r.path with
  | .projectID => handleProjectProjectID cfg env w st
  | .numericProjectID => handleProjectNumericProjectID cfg env w st
  | .serviceAccounts => handleServiceAccounts cfg env w st
  | .account a => serviceAccountMiddleware cfg env w a (handleServiceAccount cfg w r) st
  | .accountEmail a => serviceAccountMiddleware cfg env w a (handleServiceAccountEmail w) st
  | .accountToken a =>
    serviceAccountMiddleware cfg env w a (handleServiceAccountToken cfg env w r) st
  | .accountIdentity a =>
    serviceAccountMiddleware cfg env w a (fun _ s => handleServiceAccountIdentity s) st
  | .unmatched => notFoundHandler st

/-- Model of `checkMetadataFlavor` (http.go): 404 unless the request carries
`Metadata-Flavor: Google` exactly; otherwise delegate to the wrapped
handler.  Parameterised over the wrapped handler like the Go function. -/
def checkMetadataFlavor
    (handler : Request → ServerState → Response × ServerState)
    (r : Request) (st : ServerState) : Response × ServerState :=
  if r.metadataFlavor.getD "" ≠ "Google" then (statusOnly 404, st)
  else handler r st

/-- The whole served pipeline from `Serve`: the flavor gate wrapping the
router. -/
def serve (cfg : Config) (env : Env) (w : World) (r : Request)
    (st : ServerState) : Response × ServerState :=
  checkMetadataFlavor (routedApp cfg env w) r st

/-! Concrete fixtures used by witnesses and counterexamples. -/

/-- A service-account credential as parsed from a key file. -/
def saCred : Credential :=
  { json := some { clientID := "cid-1", type := "service_account",
                   clientEmail := "svc@proj.example" },
    projectID := "proj-1",
    tokenResult := some { accessToken := "tok-abc", tokenType := "Bearer", expiry := 3600 } }

/-- An authorized-user credential (no embedded email). -/
def auCred : Credential :=
  { json := some { clientID := "au-cid", type := "authorized_user", clientEmail := "" },
    projectID := "",
    tokenResult := some { accessToken := "au-tok", tokenType := "Bearer", expiry := 3600 } }

/-- Environment where only ambient discovery yields a credential. -/
def envAmbient : Env :=
  { cloudSDKConfigEnv := "", stat := fun _ => none, readFile := fun _ => none,
    parseCred := fun _ _ => none, findDefault := fun _ => some saCred }

/-- Environment where every chain step fails. -/
def envNoCred : Env :=
  { cloudSDKConfigEnv := "", stat := fun _ => none, readFile := fun _ => none,
    parseCred := fun _ _ => none, findDefault := fun _ => none }

/-- World in which every remote call fails. -/
def worldQuiet : World :=
  { userinfo := fun _ => none, projectLookup := fun _ => none, now := 0 }

/-- World in which the project lookup is denied with HTTP 403. -/
def world403 : World :=
  { userinfo := fun _ => none, projectLookup := fun _ => some (403, none), now := 0 }

/-- World in which the userinfo endpoint answers 200 with an empty Email. -/
def worldEmptyEmail : World :=
  { userinfo := fun _ => some (200, some ""), projectLookup := fun _ => none, now := 0 }

/-- Baseline configuration: one default scope, no overrides. -/
def cfg0 : Config :=
  { scopes := ["s1"], project := "", cloudSDKConfig := "",
    googleApplicationCredentials := "" }

/-- Empty starting state: cold cache slot, warn flags clear. -/
def st0 : ServerState := { }

/-- The cache entry that `getCredentials` builds for `saCred` (email
memoized by the new-credentials log line). -/
def saCached : cachedDefaultCredentials :=
  { credentials := saCred, clientID := "svc@proj.example", projectID := "proj-1",
    email := "svc@proj.example" }

/-- State after the first default-scope resolution against `envAmbient`. -/
def stWarm : ServerState := { slot := some saCached }

/-- A `next` handler that lets a test observe whether the middleware
invoked it. -/
def nextProbe : cachedDefaultCredentials → ServerState → Response × ServerState :=
  fun _ st => (writeTextResponse "handled", st)

/-! Helper lemmas shared between claim theorems. -/

/-- Step 1 of the chain computes exactly the spec-side explicit-file
credential, and never touches the cache slot. -/
theorem findCredentialsStep1_char (cfg : Config) (env : Env) (st : ServerState)
    (scopes : List String) :
    (findCredentialsStep1 cfg env st scopes).1 = explicitFileCredSpec cfg env scopes
    ∧ ((findCredentialsStep1 cfg env st scopes).2).slot = st.slot := by
  by_cases h : cfg.googleApplicationCredentials = ""
  · simp [findCredentialsStep1, explicitFileCredSpec, h]
  · rcases hstat : env.stat cfg.googleApplicationCredentials with _ | b
    · simp [findCredentialsStep1, explicitFileCredSpec, h, hstat]
    · cases b
      · rcases hp : credentialsFromFile env cfg.googleApplicationCredentials scopes with _ | c <;>
          simp [findCredentialsStep1, explicitFileCredSpec, h, hstat, hp]
      · simp [findCredentialsStep1, explicitFileCredSpec, h, hstat]

/-- Step 2 of the chain computes exactly the spec-side CLI-config
credential, and never touches the cache slot. -/
theorem findCredentialsStep2_char (cfg : Config) (env : Env) (st : ServerState)
    (scopes : List String) :
    (findCredentialsStep2 cfg env st scopes).1 = cliConfigCredSpec cfg env scopes
    ∧ ((findCredentialsStep2 cfg env st scopes).2).slot = st.slot := by
  by_cases h : effectiveCloudSDKConfig cfg env = ""
  · simp [findCredentialsStep2, cliConfigCredSpec, effectiveCloudSDKConfig] at h ⊢
    simp [h]
  · rcases hstat : env.stat (applicationConfigPath (effectiveCloudSDKConfig cfg env)) with _ | b
    · simp [findCredentialsStep2, cliConfigCredSpec, effectiveCloudSDKConfig] at h hstat ⊢
      simp [h, hstat]
    · cases b
      · rcases hp : credentialsFromFile env
            (applicationConfigPath (effectiveCloudSDKConfig cfg env)) scopes with _ | c <;>
          · simp [findCredentialsStep2, cliConfigCredSpec, effectiveCloudSDKConfig] at h hstat hp ⊢
            simp [h, hstat, hp]
      · simp [findCredentialsStep2, cliConfigCredSpec, effectiveCloudSDKConfig] at h hstat ⊢
        simp [h, hstat]

/-- The whole chain computes the spec-side priority function; the state is
only used for warn bookkeeping and the cache slot is preserved.  In
particular the returned credential is independent of the server state. -/
theorem findCredentials_char (cfg : Config) (env : Env) (st : ServerState)
    (scopes : List String) :
    (findCredentials cfg env st scopes).1 = findCredentialsSpec cfg env scopes
    ∧ ((findCredentials cfg env st scopes).2).slot = st.slot := by
  unfold findCredentials findCredentialsSpec
  rcases h1 : findCredentialsStep1 cfg env st scopes with ⟨o1, st1⟩
  have e1 := findCredentialsStep1_char cfg env st scopes
  rw [h1] at e1
  rcases o1 with _ | c1
  · dsimp only
    rcases h2 : findCredentialsStep2 cfg env st1 scopes with ⟨o2, st2⟩
    have e2 := findCredentialsStep2_char cfg env st1 scopes
    rw [h2] at e2
    rw [← e1.1, ← e2.1]
    rcases o2 with _ | c2
    · exact ⟨rfl, e2.2.trans e1.2⟩
    · exact ⟨rfl, e2.2.trans e1.2⟩
  · rw [← e1.1]
    exact ⟨rfl, e1.2⟩

/-- Unpacking a successful `newCachedDefaultCredentials`: the wrapped
credential is the resolved one, the memo fields start at their sentinels,
and the clientID is the eagerly derived email. -/
theorem newCached_char (cred : Credential) (pid : String) (w : World)
    (nc : cachedDefaultCredentials) :
    newCachedDefaultCredentials cred pid w = .ok nc →
    nc.credentials = cred ∧ nc.email = "" ∧ nc.numericProjectID = 0
    ∧ GetEmailOfCredentials cred w = .ok nc.clientID := by
  unfold newCachedDefaultCredentials
  rcases h : GetEmailOfCredentials cred w with e | k
  · intro hc; exact Except.noConfusion hc
  · intro hc
    cases hc
    exact ⟨rfl, rfl, rfl, rfl⟩

/-- Explicit-scope resolution: the returned credential is determined by
the chain on exactly the given scopes (independent of the server state),
and the cache slot is untouched. -/
theorem getCredentials_explicit_char (cfg : Config) (env : Env) (w : World)
    (st : ServerState) (l : List String) :
    (getCredentials cfg env w st (some l)).1
      = (match findCredentialsSpec cfg env l with
         | none => none
         | some cred =>
           match newCachedDefaultCredentials cred cfg.project w with
           | .error _ => none
           | .ok nc => some nc)
    ∧ ((getCredentials cfg env w st (some l)).2).slot = st.slot := by
  unfold getCredentials
  simp only [Option.getD]
  rcases h : findCredentials cfg env st l with ⟨o, st1⟩
  have e := findCredentials_char cfg env st l
  rw [h] at e
  rcases o with _ | cred
  · dsimp only
    rw [← e.1]
    exact ⟨rfl, e.2⟩
  · rw [← e.1]
    dsimp only
    rcases hn : newCachedDefaultCredentials cred cfg.project w with msg | nc
    · exact ⟨rfl, e.2⟩
    · exact ⟨rfl, e.2⟩

/-- Memo hit of `GetEmail`. -/
theorem GetEmail_memo_hit (c : cachedDefaultCredentials) (w : World)
    (h : c.email ≠ "") : GetEmail c w = (.ok c.email, c, 0) := by
  unfold GetEmail
  simp [h]

/-- A successful `GetEmail` leaves the returned value memoized in the
returned instance. -/
theorem GetEmail_result_email (c : cachedDefaultCredentials) (w : World)
    (e : String) (d : cachedDefaultCredentials) (n : Nat) :
    GetEmail c w = (.ok e, d, n) → d.email = e := by
  unfold GetEmail
  by_cases h : c.email = ""
  · rw [if_neg (by simp [h])]
    rcases hg : GetEmailOfCredentials c.credentials w with msg | em
    · intro hc
      injection hc with h1 h2
      exact Except.noConfusion h1
    · intro hc
      injection hc with h1 h2
      injection h2 with h2a h2b
      injection h1 with h1
      rw [← h2a, ← h1]
  · rw [if_pos h]
    intro hc
    injection hc with h1 h2
    injection h2 with h2a h2b
    injection h1 with h1
    rw [← h2a, h1]

/-- Memo hit of `GetNumericProjectID`. -/
theorem GetNumericProjectID_memo_hit (c : cachedDefaultCredentials) (w : World)
    (h1 : c.projectID ≠ "") (h2 : c.numericProjectID ≠ 0) :
    GetNumericProjectID c w = (.ok c.numericProjectID, c, 0) := by
  unfold GetNumericProjectID
  rw [if_neg h1, if_pos h2]

/-- A successful `GetNumericProjectID` either took the empty-project no-op
branch (value 0, instance untouched) or leaves the value memoized. -/
theorem GetNumericProjectID_result (c : cachedDefaultCredentials) (w : World)
    (v : Int) (d : cachedDefaultCredentials) (n : Nat) :
    GetNumericProjectID c w = (.ok v, d, n) →
    (c.projectID = "" ∧ v = 0 ∧ d = c)
    ∨ (d.numericProjectID = v ∧ d.projectID = c.projectID ∧ c.projectID ≠ "") := by
  unfold GetNumericProjectID
  by_cases h1 : c.projectID = ""
  · rw [if_pos h1]
    intro hc
    injection hc with ha hb
    injection hb with hb1 hb2
    injection ha with ha
    exact Or.inl ⟨h1, ha.symm, hb1.symm⟩
  · rw [if_neg h1]
    by_cases h2 : c.numericProjectID ≠ 0
    · rw [if_pos h2]
      intro hc
      injection hc with ha hb
      injection hb with hb1 hb2
      injection ha with ha
      refine Or.inr ⟨?_, ?_, h1⟩
      · rw [← hb1]; exact ha
      · rw [← hb1]
    · rw [if_neg h2]
      rcases hl : w.projectLookup c.projectID with _ | ⟨status, body⟩
      · intro hc
        injection hc with ha hb
        exact Except.noConfusion ha
      · dsimp only
        split
        · intro hc
          injection hc with ha hb
          exact Except.noConfusion ha
        · rcases body with _ | pn
          · intro hc
            injection hc with ha hb
            exact Except.noConfusion ha
          · dsimp only
            rcases hp : parseInt64 pn with _ | u
            · intro hc
              injection hc with ha hb
              exact Except.noConfusion ha
            · intro hc
              injection hc with ha hb
              injection hb with hb1 hb2
              injection ha with ha
              refine Or.inr ⟨?_, ?_, h1⟩
              · rw [← hb1]; exact ha
              · rw [← hb1]

/-- Lemma: `GetEmail` on an instance with an unmemoized email preserves the other
fields and memoizes either nothing (on failure) or the freshly derived
email of the wrapped credential. -/
theorem GetEmail_fresh_char (nc : cachedDefaultCredentials) (w : World)
    (h : nc.email = "") :
    ((GetEmail nc w).2.1).numericProjectID = nc.numericProjectID
    ∧ ((GetEmail nc w).2.1).clientID = nc.clientID
    ∧ ((GetEmail nc w).2.1).credentials = nc.credentials
    ∧ (((GetEmail nc w).2.1).email = ""
        ∨ GetEmailOfCredentials nc.credentials w = .ok ((GetEmail nc w).2.1).email) := by
  unfold GetEmail
  rw [if_neg (by simp [h])]
  rcases hg : GetEmailOfCredentials nc.credentials w with msg | em
  · exact ⟨rfl, rfl, rfl, Or.inl h⟩
  · exact ⟨rfl, rfl, rfl, Or.inr rfl⟩

/-! Claim theorems. -/

/-- C1: credential resolution follows the fixed fallback order with first
success winning — the explicit credentials file (configured, existing,
non-directory, parsing), else the CLI-config directory's
`application_default_credentials.json` under the same rules, else ambient
default discovery; for every scope list and every combination of available
sources, `findCredentials` returns exactly the first available source's
credential. -/
theorem credential_chain_priority (cfg : Config) (env : Env) (st : ServerState)
    (scopes : List String) :
    (findCredentials cfg env st scopes).1 = findCredentialsSpec cfg env scopes :=
  (findCredentials_char cfg env st scopes).1

/-- C4: a request whose Metadata-Flavor header is absent or not exactly
`Google` gets a bare 404 from the gate, with the server state untouched and
the wrapped handler never invoked (the result is the same for every wrapped
handler), and the gate wraps the whole routed application in `serve`. -/
theorem metadata_flavor_gate (cfg : Config) (env : Env) (w : World)
    (handler : Request → ServerState → Response × ServerState)
    (r : Request) (st : ServerState)
    (h : r.metadataFlavor.getD "" ≠ "Google") :
    checkMetadataFlavor handler r st = (statusOnly 404, st)
    ∧ serve cfg env w r st = (statusOnly 404, st) := by
  unfold serve checkMetadataFlavor
  rw [if_pos h, if_pos h]
  exact ⟨rfl, rfl⟩

/-- A request without the Metadata-Flavor header. -/
def reqNoFlavor : Request := { path := "/computeMetadata/v1/project/project-id" }

/-- Witness for C4 at a concrete header-less request. -/
theorem metadata_flavor_gate_witness :
    checkMetadataFlavor (routedApp cfg0 envAmbient worldQuiet) reqNoFlavor st0
      = (statusOnly 404, st0)
    ∧ serve cfg0 envAmbient worldQuiet reqNoFlavor st0 = (statusOnly 404, st0) :=
  metadata_flavor_gate cfg0 envAmbient worldQuiet
    (routedApp cfg0 envAmbient worldQuiet) reqNoFlavor st0 (by decide)

/-- C2: default-scope resolution and the single cache slot.  Given that
the chain resolves a credential and the cache entry for it is built with
clientID `newCache.clientID`: (1) on a clientID match the existing cached
instance itself is returned and the state — including its memoized
email/numericProjectID — is untouched; (2) on a mismatch or empty slot the
slot is replaced by a fresh instance built from the newly resolved
credential, with no memoized numericProjectID and an email that is either
still unset or freshly derived from the new credential (never inherited);
(3) after the call the single slot holds exactly one entry and its
clientID is the newly resolved credential's. -/
theorem default_scope_cache_invalidation (cfg : Config) (env : Env) (w : World)
    (st st1 : ServerState) (cred : Credential) (newCache : cachedDefaultCredentials)
    (hfind : findCredentials cfg env st cfg.scopes = (some cred, st1))
    (hnew : newCachedDefaultCredentials cred cfg.project w = .ok newCache) :
    (∀ cached, st1.slot = some cached → cached.clientID = newCache.clientID →
        getCredentials cfg env w st none = (some cached, st1))
    ∧ ((st1.slot = none
          ∨ ∃ cached, st1.slot = some cached ∧ cached.clientID ≠ newCache.clientID) →
        getCredentials cfg env w st none
          = (some ((GetEmail newCache w).2.1),
             { st1 with slot := some ((GetEmail newCache w).2.1) })
        ∧ ((GetEmail newCache w).2.1).numericProjectID = 0
        ∧ ((GetEmail newCache w).2.1).clientID = newCache.clientID
        ∧ (((GetEmail newCache w).2.1).email = ""
            ∨ GetEmailOfCredentials cred w = .ok (((GetEmail newCache w).2.1).email)))
    ∧ (∀ u, ((getCredentials cfg env w st none).2).slot = some u →
        u.clientID = newCache.clientID) := by
  obtain ⟨hcred, hemail0, hnum0, _⟩ := newCached_char cred cfg.project w newCache hnew
  have hfc := GetEmail_fresh_char newCache w hemail0
  unfold getCredentials
  simp only [Option.getD]
  rw [hfind]
  dsimp only
  rw [hnew]
  dsimp only
  rcases hslot : st1.slot with _ | cached
  all_goals dsimp only
  · refine ⟨?_, ?_, ?_⟩
    · intro cached hc; exact absurd hc (by simp)
    · intro _
      refine ⟨rfl, ?_, hfc.2.1, ?_⟩
      · rw [hfc.1]; exact hnum0
      · rcases hfc.2.2.2 with h | h
        · exact Or.inl h
        · exact Or.inr (by rw [← hcred]; exact h)
    · intro u hu
      injection hu with hu
      rw [← hu, hfc.2.1]
  · by_cases hid : cached.clientID = newCache.clientID
    · rw [if_pos hid]
      refine ⟨?_, ?_, ?_⟩
      · intro cached2 hc hid2
        injection hc with hc
        rw [hc]
      · rintro (h | ⟨cached2, hc, hne⟩)
        · exact Option.noConfusion h
        · injection hc with hc
          exact absurd (hc ▸ hid) hne
      · intro u hu
        rw [hslot] at hu
        injection hu with hu
        rw [← hu]; exact hid
    · rw [if_neg hid]
      refine ⟨?_, ?_, ?_⟩
      · intro cached2 hc hid2
        injection hc with hc
        exact absurd (hc ▸ hid2) (hc ▸ hid)
      · intro _
        refine ⟨rfl, ?_, hfc.2.1, ?_⟩
        · rw [hfc.1]; exact hnum0
        · rcases hfc.2.2.2 with h | h
          · exact Or.inl h
          · exact Or.inr (by rw [← hcred]; exact h)
      · intro u hu
        injection hu with hu
        rw [← hu, hfc.2.1]

/-- The cache entry for `saCred` as first constructed, before the
new-credentials log line memoizes the email. -/
def saCachedBare : cachedDefaultCredentials :=
  { credentials := saCred, clientID := "svc@proj.example", projectID := "proj-1" }

/-- Witness for C2: a cold-slot resolution installs the fresh entry, and a
repeated resolution with the same clientID returns the very same cached
instance with state untouched. -/
theorem default_scope_cache_invalidation_witness :
    getCredentials cfg0 envAmbient worldQuiet st0 none = (some saCached, stWarm)
    ∧ getCredentials cfg0 envAmbient worldQuiet stWarm none = (some saCached, stWarm) :=
  ⟨((default_scope_cache_invalidation cfg0 envAmbient worldQuiet st0 st0 saCred
      saCachedBare rfl rfl).2.1 (Or.inl rfl)).1,
   (default_scope_cache_invalidation cfg0 envAmbient worldQuiet stWarm stWarm saCred
      saCachedBare rfl rfl).1 saCached rfl rfl⟩

/-- C3: account matching, given resolvable default credentials whose email
derives to `e`: the literal segment `default` is always passed through to
the handler; any other segment is passed through iff it equals `e`
exactly (string equality, hence case-sensitive); otherwise the middleware
answers 404 without invoking the handler (the result is a fixed 404
response independent of `next`). -/
theorem account_matching_policy (cfg : Config) (env : Env) (w : World)
    (st st1 : ServerState) (acct : String)
    (next : cachedDefaultCredentials → ServerState → Response × ServerState)
    (cred : cachedDefaultCredentials) (e : String)
    (hres : getCredentials cfg env w st none = (some cred, st1))
    (hemail : (GetEmail cred w).1 = .ok e) :
    (acct = "default" → serviceAccountMiddleware cfg env w acct next st = next cred st1)
    ∧ (acct ≠ "default" → acct = e →
        serviceAccountMiddleware cfg env w acct next st
          = next ((GetEmail cred w).2.1) { st1 with slot := some ((GetEmail cred w).2.1) })
    ∧ (acct ≠ "default" → acct ≠ e →
        serviceAccountMiddleware cfg env w acct next st
          = (statusOnly 404, { st1 with slot := some ((GetEmail cred w).2.1) })) := by
  unfold serviceAccountMiddleware
  rw [hres]
  dsimp only
  rcases hg : GetEmail cred w with ⟨re, rc, rn⟩
  rw [hg] at hemail
  dsimp only at hemail
  rw [hemail]
  refine ⟨?_, ?_, ?_⟩
  · intro h; rw [if_pos h]
  · intro h he
    rw [if_neg h]
    dsimp only
    rw [if_neg (by simp [he])]
  · intro h he
    rw [if_neg h]
    dsimp only
    rw [if_pos he]

/-- Witness for C3 at concrete inputs: `default` and the exact resolved
email are granted; a differently-cased variant of the email is refused
with 404. -/
theorem account_matching_policy_witness :
    serviceAccountMiddleware cfg0 envAmbient worldQuiet "default" nextProbe st0
      = nextProbe saCached stWarm
    ∧ serviceAccountMiddleware cfg0 envAmbient worldQuiet "svc@proj.example" nextProbe st0
      = nextProbe saCached stWarm
    ∧ serviceAccountMiddleware cfg0 envAmbient worldQuiet "SVC@proj.example" nextProbe st0
      = (statusOnly 404, stWarm) :=
  ⟨(account_matching_policy cfg0 envAmbient worldQuiet st0 stWarm "default" nextProbe
      saCached "svc@proj.example" rfl rfl).1 rfl,
   (account_matching_policy cfg0 envAmbient worldQuiet st0 stWarm "svc@proj.example"
      nextProbe saCached "svc@proj.example" rfl rfl).2.1 (by decide) rfl,
   (account_matching_policy cfg0 envAmbient worldQuiet st0 stWarm "SVC@proj.example"
      nextProbe saCached "svc@proj.example" rfl rfl).2.2 (by decide) (by decide)⟩

/-- World in which the project lookup succeeds with projectNumber 42. -/
def worldPN : World :=
  { userinfo := fun _ => none, projectLookup := fun _ => some (200, some "42"), now := 0 }

/-- Fixture: `saCached` with the numeric project id memoized. -/
def saCachedNum : cachedDefaultCredentials :=
  { credentials := saCred, clientID := "svc@proj.example", projectID := "proj-1",
    email := "svc@proj.example", numericProjectID := 42 }

/-- The cache entry `newCachedDefaultCredentials` builds for `auCred`
against `worldEmptyEmail` (the userinfo endpoint reports an empty email,
so the derived clientID is empty). -/
def auCachedCex : cachedDefaultCredentials :=
  { credentials := auCred, clientID := "", projectID := "" }

/-- C5 counterexample: on a reachable CachedCredential instance (an
authorized-user credential whose userinfo lookup answers 200 with an empty
`Email`), the first `GetEmail` call succeeds with the empty string — the
memo sentinel — so the second call performs a second external resolution,
refuting "repeated calls perform at most one external resolution each". -/
theorem memoization_at_most_once_cex :
    newCachedDefaultCredentials auCred "" worldEmptyEmail = .ok auCachedCex
    ∧ (GetEmail auCachedCex worldEmptyEmail).1 = .ok ""
    ∧ (GetEmail auCachedCex worldEmptyEmail).2.2 = 1
    ∧ (GetEmail ((GetEmail auCachedCex worldEmptyEmail).2.1) worldEmptyEmail).2.2 = 1 :=
  ⟨rfl, rfl, rfl, rfl⟩

/-- C5 amended: once a call succeeds with a non-sentinel value (a
non-empty email, resp. a nonzero numeric project id), every later call on
the returned instance is a pure memo hit — same value, instance unchanged,
zero external calls — under any world.  Failed or sentinel-valued
computations are re-attempted instead. -/
theorem memoization_after_success (c d d2 : cachedDefaultCredentials)
    (w w2 : World) (e : String) (n : Nat) (v : Int) (m : Nat) :
    (GetEmail c w = (.ok e, d, n) → e ≠ "" → GetEmail d w2 = (.ok e, d, 0))
    ∧ (GetNumericProjectID c w = (.ok v, d2, m) → v ≠ 0 →
        GetNumericProjectID d2 w2 = (.ok v, d2, 0)) := by
  constructor
  · intro h hne
    have hd := GetEmail_result_email c w e d n h
    rw [GetEmail_memo_hit d w2 (by rw [hd]; exact hne), hd]
  · intro h hv
    rcases GetNumericProjectID_result c w v d2 m h with ⟨_, hv0, _⟩ | ⟨hm, hp, hne⟩
    · exact absurd hv0 hv
    · rw [GetNumericProjectID_memo_hit d2 w2 (by rw [hp]; exact hne)
        (by rw [hm]; exact hv), hm]

/-- Witness for the amended C5: after a first successful non-sentinel
computation, the second call is a memo hit with no external call. -/
theorem memoization_after_success_witness :
    GetEmail saCached worldQuiet = (.ok "svc@proj.example", saCached, 0)
    ∧ GetNumericProjectID saCachedNum worldQuiet = (.ok 42, saCachedNum, 0) :=
  ⟨(memoization_after_success saCachedBare saCached saCached worldQuiet worldQuiet
      "svc@proj.example" 0 0 0).1 rfl (by decide),
   (memoization_after_success saCached saCached saCachedNum worldPN worldQuiet
      "" 0 42 1).2 rfl (by decide)⟩

/-- A token request carrying an explicit scope override. -/
def reqTokenScopes : Request :=
  { path := "/computeMetadata/v1/instance/service-accounts/default/token",
    metadataFlavor := some "Google", qScopes := "s2" }

set_option maxRecDepth 4096 in
/-- C6 counterexample: a full token request with an explicit scope override
starting from a cold slot leaves the default-scope slot populated — the
account-matching middleware performed a default-scope resolution and wrote
the slot — refuting "the default-scope cache slot is neither read nor
written" for the whole request. -/
theorem explicit_scope_slot_cex :
    st0.slot = none
    ∧ reqTokenScopes.qScopes ≠ ""
    ∧ ((serve cfg0 envAmbient worldQuiet reqTokenScopes st0).2).slot = some saCached := by
  exact ⟨rfl, by decide, by decide⟩

/-- C6 amended: the explicit-scope re-resolution itself (`getCredentials`
with a non-nil scope list) never reads or writes the default-scope slot —
the slot is unchanged and the returned credential is independent of the
slot's contents — and the returned instance is fresh and non-cached, with
no memoized email or numeric project id.  (The surrounding account-matching
middleware still performs a default-scope resolution that may populate the
slot.) -/
theorem explicit_scope_resolution_frame (cfg : Config) (env : Env) (w : World)
    (st st' : ServerState) (l : List String) :
    ((getCredentials cfg env w st (some l)).2).slot = st.slot
    ∧ (getCredentials cfg env w st (some l)).1
        = (getCredentials cfg env w st' (some l)).1
    ∧ ∀ c, (getCredentials cfg env w st (some l)).1 = some c →
        c.email = "" ∧ c.numericProjectID = 0 := by
  have h1 := getCredentials_explicit_char cfg env w st l
  have h2 := getCredentials_explicit_char cfg env w st' l
  refine ⟨h1.2, h1.1.trans h2.1.symm, ?_⟩
  intro c hc
  rw [h1.1] at hc
  rcases hs : findCredentialsSpec cfg env l with _ | cred
  · rw [hs] at hc; exact Option.noConfusion hc
  · rw [hs] at hc
    dsimp only at hc
    rcases hn : newCachedDefaultCredentials cred cfg.project w with msg | nc
    · rw [hn] at hc; exact Option.noConfusion hc
    · rw [hn] at hc
      dsimp only at hc
      injection hc with hc
      obtain ⟨_, he, hnum, _⟩ := newCached_char cred cfg.project w nc hn
      rw [← hc]
      exact ⟨he, hnum⟩

/-- Witness for the amended C6 at concrete inputs: a warm slot is left
untouched by an explicit-scope resolution, the result matches the one from
a cold slot, and the returned instance is fresh. -/
theorem explicit_scope_resolution_frame_witness :
    ((getCredentials cfg0 envAmbient worldQuiet stWarm (some ["s2"])).2).slot
      = some saCached
    ∧ (getCredentials cfg0 envAmbient worldQuiet stWarm (some ["s2"])).1
        = (getCredentials cfg0 envAmbient worldQuiet st0 (some ["s2"])).1
    ∧ saCachedBare.email = "" ∧ saCachedBare.numericProjectID = 0 :=
  ⟨(explicit_scope_resolution_frame cfg0 envAmbient worldQuiet stWarm st0 ["s2"]).1,
   (explicit_scope_resolution_frame cfg0 envAmbient worldQuiet stWarm st0 ["s2"]).2.1,
   (explicit_scope_resolution_frame cfg0 envAmbient worldQuiet stWarm st0 ["s2"]).2.2
     saCachedBare rfl⟩

/-- Characterization of a cold (unmemoized) `GetNumericProjectID` call with
a known project id: exactly one remote lookup, dissected by outcome. -/
theorem GetNumericProjectID_cold (c : cachedDefaultCredentials) (w : World)
    (h1 : c.projectID ≠ "") (h2 : c.numericProjectID = 0) :
    GetNumericProjectID c w =
      (match w.projectLookup c.projectID with
       | none => (.error "Failed to resolve numeric project number", c, 1)
       | some (status, body) =>
         if status ≠ 200 then (.error "Unexpected response from project endpoint", c, 1)
         else
           match body with
           | none => (.error "Unexpected response from project endpoint", c, 1)
           | some pn =>
             match parseInt64 pn with
             | none => (.error "Unexpected response from project endpoint", c, 1)
             | some v => (.ok v, { c with numericProjectID := v }, 1)) := by
  unfold GetNumericProjectID
  rw [if_neg h1, if_neg (by simp [h2])]

/-- C7: the numeric project resolver is a no-op success (0) without a
project id; with one and no memoized value it performs exactly one remote
lookup and succeeds iff the lookup answers HTTP 200 with a parsable body
whose projectNumber parses as a decimal int64 (returning exactly that
value, memoized); on any failure the instance is unchanged — no negative
caching — so an identical retry performs the remote call again; and the
numeric-project-id handler surfaces a resolver error as HTTP 500. -/
theorem numeric_project_resolver_contract (c : cachedDefaultCredentials) (w : World) :
    (c.projectID = "" → GetNumericProjectID c w = (.ok 0, c, 0))
    ∧ (c.projectID ≠ "" → c.numericProjectID = 0 →
        ((GetNumericProjectID c w).2.2 = 1
         ∧ ((∃ v, (GetNumericProjectID c w).1 = .ok v)
              ↔ ∃ pn v, w.projectLookup c.projectID = some (200, some pn)
                  ∧ parseInt64 pn = some v)
         ∧ (∀ pn v, w.projectLookup c.projectID = some (200, some pn) →
              parseInt64 pn = some v →
              GetNumericProjectID c w = (.ok v, { c with numericProjectID := v }, 1))
         ∧ (∀ msg, (GetNumericProjectID c w).1 = .error msg →
              (GetNumericProjectID c w).2.1 = c
              ∧ (GetNumericProjectID ((GetNumericProjectID c w).2.1) w).2.2 = 1)))
    ∧ (∀ cfg env st cred st1 msg,
        getCredentials cfg env w st none = (some cred, st1) →
        (GetNumericProjectID cred w).1 = .error msg →
        (handleProjectNumericProjectID cfg env w st).1 = statusOnly 500) := by
  refine ⟨?_, ?_, ?_⟩
  · intro h
    unfold GetNumericProjectID
    rw [if_pos h]
  · intro h1 h2
    rw [GetNumericProjectID_cold c w h1 h2]
    rcases hl : w.projectLookup c.projectID with _ | ⟨status, body⟩
    · refine ⟨rfl, ?_, ?_, ?_⟩
      · constructor
        · rintro ⟨v, hv⟩; exact Except.noConfusion hv
        · rintro ⟨pn, v, hpn, _⟩; exact Option.noConfusion hpn
      · intro pn v hpn _; exact Option.noConfusion hpn
      · intro msg _
        refine ⟨rfl, ?_⟩
        rw [GetNumericProjectID_cold c w h1 h2, hl]
    · dsimp only
      by_cases hs : status = 200
      · subst hs
        rw [if_neg (by simp)]
        rcases body with _ | pn
        · refine ⟨rfl, ?_, ?_, ?_⟩
          · constructor
            · rintro ⟨v, hv⟩; exact Except.noConfusion hv
            · rintro ⟨pn, v, hpn, _⟩
              injection hpn with hpn
              injection hpn with _ hb
              exact Option.noConfusion hb
          · intro pn v hpn _
            injection hpn with hpn
            injection hpn with _ hb
            exact Option.noConfusion hb
          · intro msg _
            refine ⟨rfl, ?_⟩
            rw [GetNumericProjectID_cold c w h1 h2, hl]
            dsimp only
            rw [if_neg (by simp)]
        · dsimp only
          rcases hp : parseInt64 pn with _ | v
          · refine ⟨rfl, ?_, ?_, ?_⟩
            · constructor
              · rintro ⟨v, hv⟩; exact Except.noConfusion hv
              · rintro ⟨pn2, v, hpn, hp2⟩
                injection hpn with hpn
                injection hpn with _ hb
                injection hb with hb
                rw [← hb] at hp2
                rw [hp] at hp2
                exact Option.noConfusion hp2
            · intro pn2 v hpn hp2
              injection hpn with hpn
              injection hpn with _ hb
              injection hb with hb
              rw [← hb] at hp2
              rw [hp] at hp2
              exact Option.noConfusion hp2
            · intro msg _
              refine ⟨rfl, ?_⟩
              rw [GetNumericProjectID_cold c w h1 h2, hl]
              dsimp only
              rw [if_neg (by simp)]
              rw [hp]
          · refine ⟨rfl, ?_, ?_, ?_⟩
            · constructor
              · intro _; exact ⟨pn, v, rfl, hp⟩
              · intro _; exact ⟨v, rfl⟩
            · intro pn2 v2 hpn hp2
              injection hpn with hpn
              injection hpn with _ hb
              injection hb with hb
              rw [← hb] at hp2
              rw [hp] at hp2
              injection hp2 with hv
              rw [hv]
            · intro msg hmsg
              exact absurd hmsg (by simp)
      · rw [if_pos hs]
        refine ⟨rfl, ?_, ?_, ?_⟩
        · constructor
          · rintro ⟨v, hv⟩; exact Except.noConfusion hv
          · rintro ⟨pn, v, hpn, _⟩
            injection hpn with hpn
            injection hpn with hst _
            exact absurd hst hs
        · intro pn v hpn _
          injection hpn with hpn
          injection hpn with hst _
          exact absurd hst hs
        · intro msg _
          refine ⟨rfl, ?_⟩
          rw [GetNumericProjectID_cold c w h1 h2, hl]
          dsimp only
          rw [if_pos hs]
  · intro cfg env st cred st1 msg hres herr
    unfold handleProjectNumericProjectID
    rw [hres]
    dsimp only
    rcases hr : GetNumericProjectID cred w with ⟨rv, rc, rn⟩
    rw [hr] at herr
    dsimp only at herr
    rw [herr]

/-- Witness for C7: the no-op branch, the 403-denied lookup (error, not
cached, retried with another remote call), the successful parse, and the
handler answering 500 on the 403 world. -/
theorem numeric_project_resolver_contract_witness :
    GetNumericProjectID auCachedCex worldQuiet = (.ok 0, auCachedCex, 0)
    ∧ ((GetNumericProjectID saCachedBare world403).2.1 = saCachedBare
        ∧ (GetNumericProjectID ((GetNumericProjectID saCachedBare world403).2.1)
            world403).2.2 = 1)
    ∧ GetNumericProjectID saCachedBare worldPN
        = (.ok 42, { saCachedBare with numericProjectID := 42 }, 1)
    ∧ (handleProjectNumericProjectID cfg0 envAmbient world403 st0).1 = statusOnly 500 :=
  ⟨(numeric_project_resolver_contract auCachedCex worldQuiet).1 rfl,
   ((numeric_project_resolver_contract saCachedBare world403).2.1 (by decide) rfl).2.2.2
     "Unexpected response from project endpoint" rfl,
   ((numeric_project_resolver_contract saCachedBare worldPN).2.1 (by decide) rfl).2.2.1
     "42" 42 rfl rfl,
   (numeric_project_resolver_contract saCached world403).2.2 cfg0 envAmbient st0
     saCached stWarm "Unexpected response from project endpoint" rfl rfl⟩

/-- A numeric-project-id request with the proper flavor header. -/
def reqNumericOK : Request :=
  { path := "/computeMetadata/v1/project/numeric-project-id",
    metadataFlavor := some "Google" }

/-- C8 counterexample: with every chain step failing, the
numeric-project-id endpoint answers 200 with body "0" — not 500 — so
resolution failure is not surfaced as HTTP 500 on every
credential-needing endpoint. -/
theorem resolution_failure_cex :
    (getCredentials cfg0 envNoCred worldQuiet st0 none).1 = none
    ∧ (serve cfg0 envNoCred worldQuiet reqNumericOK st0).1 = writeTextResponse "0"
    ∧ finalStatus (serve cfg0 envNoCred worldQuiet reqNumericOK st0).1 = 200 :=
  ⟨rfl, rfl, rfl⟩

/-- C8 amended: when default-scope resolution fails, the service-accounts
listing handler answers 500, but the project-id handler answers 200 with
an empty body, the numeric-project-id handler answers 200 with "0", and
the per-account middleware returns without writing anything (for every
account segment and every wrapped handler), which the wire reports as an
implicit 200. -/
theorem resolution_failure_statuses (cfg : Config) (env : Env) (w : World)
    (st st1 : ServerState)
    (hfail : getCredentials cfg env w st none = (none, st1)) :
    handleServiceAccounts cfg env w st = (statusOnly 500, st1)
    ∧ handleProjectProjectID cfg env w st = (writeTextResponse "", st1)
    ∧ handleProjectNumericProjectID cfg env w st = (writeTextResponse "0", st1)
    ∧ (∀ acct next,
        serviceAccountMiddleware cfg env w acct next st = (({ } : Response), st1))
    ∧ finalStatus ({ } : Response) = 200 := by
  refine ⟨?_, ?_, ?_, ?_, rfl⟩
  · unfold handleServiceAccounts; rw [hfail]
  · unfold handleProjectProjectID; rw [hfail]
  · unfold handleProjectNumericProjectID; rw [hfail]
  · intro acct next
    unfold serviceAccountMiddleware; rw [hfail]

/-- Witness for the amended C8 on the concrete failing environment. -/
theorem resolution_failure_statuses_witness :
    handleServiceAccounts cfg0 envNoCred worldQuiet st0 = (statusOnly 500, st0)
    ∧ handleProjectNumericProjectID cfg0 envNoCred worldQuiet st0
        = (writeTextResponse "0", st0)
    ∧ serviceAccountMiddleware cfg0 envNoCred worldQuiet "default" nextProbe st0
        = (({ } : Response), st0) :=
  ⟨(resolution_failure_statuses cfg0 envNoCred worldQuiet st0 st0 rfl).1,
   (resolution_failure_statuses cfg0 envNoCred worldQuiet st0 st0 rfl).2.2.1,
   (resolution_failure_statuses cfg0 envNoCred worldQuiet st0 st0 rfl).2.2.2.1
     "default" nextProbe⟩

/-- An identity request with the proper flavor header and valid account. -/
def reqIdentityOK : Request :=
  { path := "/computeMetadata/v1/instance/service-accounts/default/identity",
    metadataFlavor := some "Google" }

/-- C9 counterexample: on the identity endpoint with a valid header and the
`default` account but unresolvable credentials, the middleware suppresses
the handler and writes nothing, so the wire status is the implicit 200 —
not 404 — refuting "always 404 regardless of credential state". -/
theorem identity_endpoint_cex :
    (getCredentials cfg0 envNoCred worldQuiet st0 none).1 = none
    ∧ (serve cfg0 envNoCred worldQuiet reqIdentityOK st0).1.status = none
    ∧ finalStatus (serve cfg0 envNoCred worldQuiet reqIdentityOK st0).1 = 200 :=
  ⟨rfl, rfl, rfl⟩

/-- C9 amended: the identity endpoint answers 404 whenever the request
carries the proper flavor header, default credentials resolve, and the
account segment passes matching (`default` or the resolved email); when
credentials cannot be resolved the middleware writes nothing and the
response defaults to 200. -/
theorem identity_endpoint_404 (cfg : Config) (env : Env) (w : World)
    (st st1 : ServerState) (r : Request) (a : String)
    (cred : cachedDefaultCredentials)
    (hroute : routeOf r.path = .accountIdentity a)
    (hflavor : r.metadataFlavor = some "Google")
    (hres : getCredentials cfg env w st none = (some cred, st1))
    (hacct : a = "default" ∨ (GetEmail cred w).1 = .ok a) :
    (serve cfg env w r st).1 = statusOnly 404 := by
  unfold serve checkMetadataFlavor
  rw [hflavor]
  rw [if_neg (by simp)]
  unfold routedApp
  rw [hroute]
  unfold serviceAccountMiddleware
  rw [hres]
  dsimp only
  by_cases hd : a = "default"
  · rw [if_pos hd]
    rfl
  · rw [if_neg hd]
    rcases hacct with h | h
    · exact absurd h hd
    · rcases hg : GetEmail cred w with ⟨re, rc, rn⟩
      rw [hg] at h
      dsimp only at h
      rw [h]
      dsimp only
      rw [if_neg (by simp)]
      rfl

/-- Witness for the amended C9: identity on `default` with resolvable
credentials answers 404. -/
theorem identity_endpoint_404_witness :
    (serve cfg0 envAmbient worldQuiet reqIdentityOK st0).1 = statusOnly 404 :=
  identity_endpoint_404 cfg0 envAmbient worldQuiet st0 stWarm reqIdentityOK
    "default" saCached rfl rfl rfl (Or.inl rfl)

/-- A token request with an explicit scope override for another account. -/
def reqTokenScopesB : Request :=
  { path := "/computeMetadata/v1/instance/service-accounts/svc@proj.example/token",
    metadataFlavor := some "Google", qScopes := "s2" }

/-- C10: a token request with a non-empty scopes override mints the token
from the credential freshly resolved for exactly those scopes: the
response is identical for any context credential, any request with the
same scopes value (in particular any account segment), and any server
state, and no comparison against the account or default identity occurs —
the response is fully determined by the override-resolved credential's
token. -/
theorem token_override_no_identity_check (cfg : Config) (env : Env) (w : World)
    (r1 r2 : Request) (c1 c2 : cachedDefaultCredentials) (st1 st2 : ServerState)
    (hs : r1.qScopes ≠ "") (heq : r2.qScopes = r1.qScopes) :
    (handleServiceAccountToken cfg env w r1 c1 st1).1
      = (handleServiceAccountToken cfg env w r2 c2 st2).1
    ∧ (∀ c, (getCredentials cfg env w st1 (some (splitOnStr r1.qScopes ','))).1 = some c →
        (handleServiceAccountToken cfg env w r1 c1 st1).1
          = (match credToken c with
             | none => statusOnly 500
             | some tok =>
               writeJSONResponse
                 (.jsonToken tok.accessToken tok.tokenType (tok.expiry - w.now)))) := by
  unfold handleServiceAccountToken
  rw [heq]
  rw [if_pos hs, if_pos hs]
  rcases hg1 : getCredentials cfg env w st1 (some (splitOnStr r1.qScopes ',')) with ⟨o1, s1⟩
  rcases hg2 : getCredentials cfg env w st2 (some (splitOnStr r1.qScopes ',')) with ⟨o2, s2⟩
  have e1 := (getCredentials_explicit_char cfg env w st1 (splitOnStr r1.qScopes ',')).1
  have e2 := (getCredentials_explicit_char cfg env w st2 (splitOnStr r1.qScopes ',')).1
  rw [hg1] at e1
  rw [hg2] at e2
  have ho : o2 = o1 := e2.trans e1.symm
  subst ho
  constructor
  · rcases o2 with _ | c
    · rfl
    · dsimp only
      rcases credToken c with _ | tok
      · rfl
      · rfl
  · intro c hc
    dsimp only at hc
    rw [hc]
    dsimp only
    rcases credToken c with _ | tok
    · rfl
    · rfl

/-- Witness for C10: with the same scope override, a request for the
`default` account with the default cached credential and a request for the
email-named account with an unrelated context credential produce the same
response, which is the token of the override-resolved credential. -/
theorem token_override_no_identity_check_witness :
    (handleServiceAccountToken cfg0 envAmbient worldQuiet reqTokenScopes saCached st0).1
      = (handleServiceAccountToken cfg0 envAmbient worldQuiet reqTokenScopesB
          auCachedCex stWarm).1
    ∧ (handleServiceAccountToken cfg0 envAmbient worldQuiet reqTokenScopes saCached st0).1
        = writeJSONResponse (.jsonToken "tok-abc" "Bearer" 3600) :=
  ⟨(token_override_no_identity_check cfg0 envAmbient worldQuiet reqTokenScopes
      reqTokenScopesB saCached auCachedCex st0 stWarm (by decide) rfl).1,
   (token_override_no_identity_check cfg0 envAmbient worldQuiet reqTokenScopes
      reqTokenScopesB saCached auCachedCex st0 stWarm (by decide) rfl).2
     saCachedBare rfl⟩

end GTokenServer
